import Mathlib

/-!
Verification of the uk-pv-backtest scripts against their specification.

The development shallowly embeds the time-series alignment, gap-filling and
reformatting logic of the repository's scripts:

* `scripts/nationalxg/un_norm_forecast.py` — night-threshold unnormalisation;
* `scripts/nationalxg/interpolate_30min_prob.py` — half-hourly interpolation;
* `scripts/join_forecasts.py` — forecast-table concatenation with overlap check;
* `scripts/get_pvlive_data.py` — the dense (time × GSP) grid filler;
* `scripts/download_pvlive_gsp.py` — the incremental dataset extender;
* the national-CSV merge of `get_pvlive_data_extension.py` (present in the
  repository only through its tests), modelled from the spec.

Timestamps are modelled as minutes since an epoch (`ℕ`); data values as `ℚ`.
Half-hourly cadence is the literal constant 30.

The first half of the file holds the definitions, the second half the
theorems.
-/

/-- The night threshold `0.000234` used by the unnormalisation scripts. -/
def nightThreshold : ℚ := 234 / 1000000

/-- `idx_night` from `un_norm_forecast.py`: `data[c] <= 0.000234`. -/
def idx_night (v : ℚ) : Bool := v ≤ nightThreshold

/-- A row of the cross-validation forecast table: the values of the
`"... Hour Forecast"` columns in hour order, plus the `installedcapacity_mwp`
column obtained from the merge with the PVLive table. -/
structure XgRow where
  hourForecasts : List ℚ
  installedcapacity_mwp : ℚ
deriving DecidableEq

/-- The unnormalisation loop of `un_norm_forecast.py` applied to one row:
each horizon column is zeroed where `idx_night` holds and then multiplied by
the row's `installedcapacity_mwp`. -/
def un_norm_forecast_row (r : XgRow) : XgRow :=
  { r with hourForecasts :=
      r.hourForecasts.map fun v =>
        (if idx_night v then 0 else v) * r.installedcapacity_mwp }

/-- A row of the hourly probabilistic forecast table of
`interpolate_30min_prob.py`: the base, p10 and p90 hourly column values in
hour order. -/
structure ProbRow where
  base : List ℚ
  p10 : List ℚ
  p90 : List ℚ
deriving DecidableEq

/-- The output of `generate_half_hourly_forecasts` for one row: the original
hourly columns together with the generated `i + 0.5` half-hour columns. -/
structure InterpolatedRow where
  base : List ℚ
  p10 : List ℚ
  p90 : List ℚ
  baseHalf : List ℚ
  p10Half : List ℚ
  p90Half : List ℚ
deriving DecidableEq

/-- `generate_half_hourly_forecasts` from `interpolate_30min_prob.py`:
for `i` in `range(len(base_hourly_columns) - 1)` the `i + 0.5` column is the
average of the columns at `i` and `i + 1`, for the base, p10 and p90 lists
alike (the Python loop is bounded by the number of base columns for all
three; `getD` stands for the in-range index accesses). -/
def generate_half_hourly_forecasts (r : ProbRow) : InterpolatedRow :=
  { base := r.base
    p10 := r.p10
    p90 := r.p90
    baseHalf := (List.range (r.base.length - 1)).map fun i =>
      (r.base.getD i 0 + r.base.getD (i + 1) 0) / 2
    p10Half := (List.range (r.base.length - 1)).map fun i =>
      (r.p10.getD i 0 + r.p10.getD (i + 1) 0) / 2
    p90Half := (List.range (r.base.length - 1)).map fun i =>
      (r.p90.getD i 0 + r.p90.getD (i + 1) 0) / 2 }

/-- A row of an hourly forecast CSV as consumed by `join_forecasts.py`: the
`forecasting_creation_datetime_utc` key column plus a representative payload
column. -/
structure Forecast where
  forecasting_creation_datetime_utc : ℕ
  generation_mw : ℚ
deriving DecidableEq

/-- Row comparison used by `sort_values("forecasting_creation_datetime_utc")`. -/
def forecastLe (a b : Forecast) : Prop :=
  a.forecasting_creation_datetime_utc ≤ b.forecasting_creation_datetime_utc

instance : DecidableRel forecastLe := fun _ _ =>
  inferInstanceAs (Decidable (_ ≤ _))

instance : IsTotal Forecast forecastLe := ⟨fun _ _ => Nat.le_total _ _⟩

instance : IsTrans Forecast forecastLe := ⟨fun _ _ _ => Nat.le_trans⟩

/-- The overlap check of `join_forecasts.py`: the two sets of
`forecasting_creation_datetime_utc` values intersect. -/
def overlapping_dates (df1 df2 : List Forecast) : Bool :=
  df1.any fun r => df2.any fun s =>
    s.forecasting_creation_datetime_utc = r.forecasting_creation_datetime_utc

/-- `join_forecasts.py`: raise `ValueError` when the creation-datetime sets
overlap, otherwise concatenate, sort ascending by creation datetime and reset
the index (list position). -/
def join_forecasts (df1 df2 : List Forecast) : Except String (List Forecast) :=
  if overlapping_dates df1 df2 then
    .error "Overlapping dates found. Please check your input data."
  else
    .ok (List.insertionSort forecastLe (df1 ++ df2))

/-- A row of the national PVLive CSV (`pvlive_national.csv`): the
end-of-interval timestamp plus the observation columns. -/
structure NatRow where
  end_datetime_utc : ℕ
  generation_mw : ℚ
  capacity_mwp : ℚ
  installedcapacity_mwp : ℚ
deriving DecidableEq

/-- Row comparison used by `sort_values("end_datetime_utc")`. -/
def natRowLe (a b : NatRow) : Prop :=
  a.end_datetime_utc ≤ b.end_datetime_utc

instance : DecidableRel natRowLe := fun _ _ =>
  inferInstanceAs (Decidable (_ ≤ _))

instance : IsTotal NatRow natRowLe := ⟨fun _ _ => Nat.le_total _ _⟩

instance : IsTrans NatRow natRowLe := ⟨fun _ _ _ => Nat.le_trans⟩

/-- The `end_datetime_utc` column of a national table. -/
def endTimes (l : List NatRow) : List ℕ := l.map NatRow.end_datetime_utc

/-- `drop_duplicates(subset=["end_datetime_utc"], keep="last")`: a row is kept
exactly when no later row carries the same timestamp. -/
def drop_duplicates_keep_last : List NatRow → List NatRow
  | [] => []
  | x :: xs =>
    if xs.any fun y => y.end_datetime_utc = x.end_datetime_utc then
      drop_duplicates_keep_last xs
    else x :: drop_duplicates_keep_last xs

/-- Modelled from the spec: the merge step of the national-CSV extension
script (`get_pvlive_data_extension.py`, which is missing from the source
tree — only its test `test_get_pvlive_data.py` is present). Per the spec's
aligner/deduplicator contract, the newly fetched rows are appended after the
previously persisted table, the result is sorted ascending by end-of-interval
timestamp, duplicate timestamps are dropped keeping the newest (that is, the
newly fetched) row, and the index is reset to a clean sequential one (here:
list position). -/
def merge_tables (existing newData : List NatRow) : List NatRow :=
  drop_duplicates_keep_last (List.insertionSort natRowLe (existing ++ newData))

/-- Existing table of the end-to-end scenario: three half-hourly points
2023-12-01 00:00–01:00, in minutes from 2023-12-01 00:00. -/
def scenarioExisting : List NatRow :=
  [⟨0, 1, 1, 1⟩, ⟨30, 2, 2, 2⟩, ⟨60, 3, 3, 3⟩]

/-- Newly fetched table of the end-to-end scenario: four half-hourly points
2023-12-01 00:30–02:00. -/
def scenarioNew : List NatRow :=
  [⟨30, 20, 20, 20⟩, ⟨60, 30, 30, 30⟩, ⟨90, 40, 40, 40⟩, ⟨120, 50, 50, 50⟩]

/-- One PVLive API observation row: a row of the per-GSP dataframe returned
by `pvl.between` in `get_pvlive_data.py` and `download_pvlive_gsp.py`, after
`tz_localize(None)`. -/
structure Obs where
  datetime_gmt : ℕ
  generation_mw : ℚ
  capacity_mwp : ℚ
  installedcapacity_mwp : ℚ
deriving DecidableEq

/-- One cell of the dense (time × GSP) grid: the three data variables. -/
structure Cell where
  generation_mw : ℚ
  capacity_mwp : ℚ
  installedcapacity_mwp : ℚ
deriving DecidableEq

/-- The all-zero cell the grids are initialised with (`np.zeros`). -/
def Cell.zero : Cell := ⟨0, 0, 0⟩

/-- The data variables of an observation. -/
def Obs.cell (o : Obs) : Cell :=
  ⟨o.generation_mw, o.capacity_mwp, o.installedcapacity_mwp⟩

/-- Observation comparison used by `sort_values("datetime_gmt")` and
`sort_index()`. -/
def obsLe (a b : Obs) : Prop := a.datetime_gmt ≤ b.datetime_gmt

instance : DecidableRel obsLe := fun _ _ =>
  inferInstanceAs (Decidable (_ ≤ _))

instance : IsTotal Obs obsLe := ⟨fun _ _ => Nat.le_total _ _⟩

instance : IsTrans Obs obsLe := ⟨fun _ _ _ => Nat.le_trans⟩

/-- `pd.date_range(a, b, freq="30T")` in minutes: every point `a + 30 * k`
that is at most `b`. -/
def date_range (a b : ℕ) : List ℕ :=
  if b < a then [] else (List.range ((b - a) / 30 + 1)).map fun k => a + 30 * k

/-- `df.sort_values("datetime_gmt")` / `df.sort_index()` (stable). -/
def sortObs (l : List Obs) : List Obs := List.insertionSort obsLe l

/-- The observation `reindex(..., method="ffill")` picks for target time `t`:
the one with the greatest index label at or before `t` (pandas requires the
index to be unique for this), `none` when every observation is later. -/
def lastAtOrBefore (l : List Obs) (t : ℕ) : Option Obs :=
  (l.filter fun o => o.datetime_gmt ≤ t).getLast?

/-- `df.to_xarray().reindex(datetime_gmt=grid, method="ffill")` followed by
the assignment of the three variables into the entity's slice. A `none`
(a pandas `NaN`) can only arise for a grid time before every observation;
the script makes that unreachable by ensuring an observation at the first
grid slot before reindexing, and the model maps it to the zero cell. -/
def reindexFfill (gridTimes : List ℕ) (l : List Obs) : List Cell :=
  gridTimes.map fun t => ((lastAtOrBefore l t).map Obs.cell).getD Cell.zero

/-- `df.loc[t]` on the datetime index: the first row labelled `t`. -/
def locObs (l : List Obs) (t : ℕ) : Option Obs :=
  l.find? fun o => o.datetime_gmt = t

/-- Lines 126–156 of `get_pvlive_data.py` for a single GSP: the body of the
`try` block. `none` means the entity is skipped with its slice untouched
(an exception was caught, the dataframe was empty, or the `KeyError` fired
because neither the start time nor start + 30 minutes has an observation);
`some slice` is the dense slice assigned to the entity. -/
def tryProcessGsp (start : ℕ) (gridTimes : List ℕ)
    (r : Except String (List Obs)) : Option (List Cell) :=
  match r with
  | .error _ => none
  | .ok obs =>
    if obs.isEmpty then none
    else
      let df := sortObs obs
      if df.any fun o => o.datetime_gmt = start then
        some (reindexFfill gridTimes df)
      else
        match locObs df (start + 30) with
        | some o => some (reindexFfill gridTimes
            (sortObs ({ o with datetime_gmt := start } :: df)))
        | none => none

/-- The zero-initialised dataset `ds_gsp`: one all-zero slice per GSP id. -/
def initGrid (numTimes : ℕ) : ℕ → List Cell :=
  fun _ => List.replicate numTimes Cell.zero

/-- Functional update of one GSP's slice
(`ds_gsp[...].loc[dict(gsp_id=i)] = ...`). -/
def updateGrid (g : ℕ → List Cell) (i : ℕ) (s : List Cell) : ℕ → List Cell :=
  fun j => if j = i then s else g j

/-- The `for i in tqdm(gsp_ids)` loop of `get_gsp_pvlive_data` with its
`try/except: continue`: a failed or skipped entity leaves the grid as it
was, a processed one overwrites its own slice. -/
def processGsps (start : ℕ) (gridTimes : List ℕ)
    (fetch : ℕ → Except String (List Obs)) :
    List ℕ → (ℕ → List Cell) → ℕ → List Cell
  | [], g => g
  | i :: rest, g =>
    processGsps start gridTimes fetch rest
      (match tryProcessGsp start gridTimes (fetch i) with
       | some s => updateGrid g i s
       | none => g)

/-- `get_gsp_pvlive_data` from `get_pvlive_data.py`: build the dense grid
over the half-hourly timestamps from `t0` to `tEnd` for GSP ids
`0 .. gspCount - 1`, where `fetch i` is the (fallible) result of
`pvl.between` for GSP `i`. -/
def get_gsp_pvlive_data (t0 tEnd gspCount : ℕ)
    (fetch : ℕ → Except String (List Obs)) : ℕ → List Cell :=
  processGsps t0 (date_range t0 tEnd) fetch (List.range gspCount)
    (initGrid (date_range t0 tEnd).length)

/-- A row of the GSP zarr dataset: an end-of-interval timestamp together
with the per-GSP data at that time. -/
structure GspRow where
  datetime_gmt : ℕ
  data : ℕ → Cell

/-- The GSP zarr dataset `pvlive_gsp.zarr`: its `gsp_id` coordinate and its
time-indexed rows. -/
structure GspDataset where
  gspIds : List ℕ
  rows : List GspRow

/-- The `datetime_gmt` coordinate of the dataset. -/
def GspDataset.times (ds : GspDataset) : List ℕ :=
  ds.rows.map GspRow.datetime_gmt

/-- `ds_gsp.datetime_gmt.max()` (0 for an empty coordinate). -/
def maxTime (l : List ℕ) : ℕ := l.foldr max 0

/-- Lines 109–113 of `download_pvlive_gsp.py`: the latest persisted
timestamp advanced by 30 minutes — both branches of the
`if latest_date.minute == 0` conditional add the same 30 minutes. -/
def latest_date (ds : GspDataset) : ℕ := maxTime ds.times + 30

/-- The query window `[start, end]` passed to `pvl.between`
(lines 116–121 and 144–145): no fetch at all when the dataset is already up
to date (`latest_date >= end_date` returns early), otherwise
`[latest_date, end_date]`. -/
def fetchWindow (ds : GspDataset) (endDate : ℕ) : Option (ℕ × ℕ) :=
  if endDate ≤ latest_date ds then none else some (latest_date ds, endDate)

/-- Lines 148–167 of `download_pvlive_gsp.py` for one GSP: sort the fetched
frame by time and, when the window start is missing from the index, copy the
first row's values to the start (`df.loc[start] = df.loc[first_time]`).
`[]` stands for an error (caught, entity skipped) or an empty frame, both of
which leave `ds_new` untouched for this GSP. -/
def processFetch (start : ℕ) (r : Except String (List Obs)) : List Obs :=
  match r with
  | .error _ => []
  | .ok obs =>
    if obs.isEmpty then []
    else
      let df := sortObs obs
      if df.any fun o => o.datetime_gmt = start then df
      else
        match df.head? with
        | some first => sortObs ({ first with datetime_gmt := start } :: df)
        | none => df

/-- `df.loc[t]` during the per-time write loop (lines 170–180): the row
labelled `t`; with a duplicated label the last write wins. -/
def locLast (l : List Obs) (t : ℕ) : Option Obs :=
  (l.filter fun o => o.datetime_gmt = t).getLast?

/-- The cell of `ds_new` at time `t` and GSP `i` after the per-GSP update
loop: zero-initialised, overwritten by the fetched row labelled `t` when
there is one (only times of the new range exist in `ds_new`, and only GSP
ids of the dataset are visited by the loop). -/
def extend_new_cell (ds : GspDataset) (fetch : ℕ → Except String (List Obs))
    (t i : ℕ) : Cell :=
  if i ∈ ds.gspIds then
    match locLast (processFetch (latest_date ds) (fetch i)) t with
    | some o => o.cell
    | none => Cell.zero
  else Cell.zero

/-- Row comparison used by `ds_combined.sortby("datetime_gmt")`. -/
def gspRowLe (a b : GspRow) : Prop := a.datetime_gmt ≤ b.datetime_gmt

instance : DecidableRel gspRowLe := fun _ _ =>
  inferInstanceAs (Decidable (_ ≤ _))

instance : IsTotal GspRow gspRowLe := ⟨fun _ _ => Nat.le_total _ _⟩

instance : IsTrans GspRow gspRowLe := ⟨fun _ _ _ => Nat.le_trans⟩

/-- `extend_pvlive_gsp_data` from `download_pvlive_gsp.py`, as a function
from the existing dataset, the target end date and the per-GSP fetch to the
persisted dataset. When the dataset is already up to date (lines 116–118)
nothing is written and the existing dataset stands. Otherwise `ds_new` is
built as zeros over `[latest_date, end_date] × gsp_ids`, updated per GSP
from the fetch, concatenated with the existing dataset along time and
sorted by time (lines 120–192). -/
def extend_pvlive_gsp_data (ds : GspDataset) (endDate : ℕ)
    (fetch : ℕ → Except String (List Obs)) : GspDataset :=
  if endDate ≤ latest_date ds then ds
  else
    { gspIds := ds.gspIds
      rows := List.insertionSort gspRowLe
        (ds.rows ++ (date_range (latest_date ds) endDate).map fun t =>
          { datetime_gmt := t, data := fun i => extend_new_cell ds fetch t i }) }

/-- A one-row, one-GSP dataset with its single timestamp at minute 0, used
as concrete input for witnesses and counterexamples. -/
def dsOne : GspDataset := ⟨[0], [⟨0, fun _ => Cell.zero⟩]⟩

/-!
## Theorems

Helper lemmas come first, then the claim theorems with their witnesses and
counterexamples.
-/

theorem drop_duplicates_keep_last_sublist (l : List NatRow) :
    (drop_duplicates_keep_last l).Sublist l := by
  induction l with
  | nil => simp [drop_duplicates_keep_last]
  | cons x xs ih =>
    by_cases h : (xs.any fun y => y.end_datetime_utc = x.end_datetime_utc) = true
    · simp only [drop_duplicates_keep_last, h, if_true]
      exact ih.trans (List.sublist_cons_self x xs)
    · simp only [drop_duplicates_keep_last, if_neg h]
      exact ih.cons₂ x

theorem mem_of_mem_drop_duplicates_keep_last {a : NatRow} {l : List NatRow}
    (h : a ∈ drop_duplicates_keep_last l) : a ∈ l :=
  (drop_duplicates_keep_last_sublist l).mem h

theorem mem_endTimes_drop_duplicates_keep_last {t : ℕ} {l : List NatRow} :
    t ∈ endTimes (drop_duplicates_keep_last l) ↔ t ∈ endTimes l := by
  induction l with
  | nil => simp [drop_duplicates_keep_last]
  | cons x xs ih =>
    by_cases h : (xs.any fun y => y.end_datetime_utc = x.end_datetime_utc) = true
    · obtain ⟨y, hy, hyt⟩ := List.any_eq_true.mp h
      have hyt' : y.end_datetime_utc = x.end_datetime_utc := by simpa using hyt
      simp only [drop_duplicates_keep_last, h, if_true, endTimes, List.map_cons,
        List.mem_cons] at ih ⊢
      rw [ih]
      constructor
      · exact fun ht => Or.inr ht
      · rintro (rfl | ht)
        · exact hyt' ▸ List.mem_map_of_mem NatRow.end_datetime_utc hy
        · exact ht
    · simp only [drop_duplicates_keep_last, if_neg h, endTimes, List.map_cons,
        List.mem_cons] at ih ⊢
      rw [ih]

theorem nodup_endTimes_drop_duplicates_keep_last (l : List NatRow) :
    (endTimes (drop_duplicates_keep_last l)).Nodup := by
  induction l with
  | nil => simp [drop_duplicates_keep_last, endTimes]
  | cons x xs ih =>
    by_cases h : (xs.any fun y => y.end_datetime_utc = x.end_datetime_utc) = true
    · simp only [drop_duplicates_keep_last, h, if_true]
      exact ih
    · have hx : x.end_datetime_utc ∉ endTimes (drop_duplicates_keep_last xs) := by
        intro hmem
        have hmem' : x.end_datetime_utc ∈ endTimes xs :=
          mem_endTimes_drop_duplicates_keep_last.mp hmem
        obtain ⟨y, hy, hyt⟩ := List.mem_map.mp hmem'
        exact h (List.any_eq_true.mpr ⟨y, hy, by simpa using hyt⟩)
      simp only [drop_duplicates_keep_last, if_neg h, endTimes, List.map_cons,
        List.nodup_cons]
      exact ⟨hx, ih⟩

theorem not_mem_drop_duplicates_keep_last_of_count_one {a b : NatRow}
    {l : List NatRow} (hcount : l.count a = 1) (hsub : List.Sublist [a, b] l)
    (hkey : a.end_datetime_utc = b.end_datetime_utc) :
    a ∉ drop_duplicates_keep_last l := by
  induction l with
  | nil => simp at hsub
  | cons x xs ih =>
    rcases hsub with _ | ⟨_, _⟩
    case cons₂ hsub' =>
      -- head is `a`, and `b` occurs later with the same timestamp
      have hb : b ∈ xs := hsub'.mem (by simp)
      have hcnt0 : xs.count a = 0 := by
        have := List.count_cons_self a xs
        omega
      have hnotmem : a ∉ xs := by
        intro hmem
        have := List.count_pos_iff.mpr hmem
        omega
      have hany : (xs.any fun y => y.end_datetime_utc = a.end_datetime_utc) = true :=
        List.any_eq_true.mpr ⟨b, hb, by simp [hkey]⟩
      simp only [drop_duplicates_keep_last, hany, if_true]
      exact fun hmem => hnotmem (mem_of_mem_drop_duplicates_keep_last hmem)
    case cons hsub' =>
      -- the pair `[a, b]` lives entirely in the tail
      by_cases hax : a = x
      · subst hax
        have hmem : a ∈ xs := hsub'.mem (by simp)
        have hpos := List.count_pos_iff.mpr hmem
        have := List.count_cons_self a xs
        omega
      · have hcnt : xs.count a = 1 := by
          have h2 := List.count_cons a x xs
          have hbeq : (x == a) = false := by
            simp only [beq_eq_false_iff_ne, ne_eq]
            exact fun hxa => hax hxa.symm
          rw [hbeq] at h2
          simp only [if_neg (by simp : ¬(false = true))] at h2
          omega
        have ihx := ih hcnt hsub'
        by_cases h : (xs.any fun y => y.end_datetime_utc = x.end_datetime_utc) = true
        · simp only [drop_duplicates_keep_last, h, if_true]
          exact ihx
        · simp only [drop_duplicates_keep_last, if_neg h, List.mem_cons]
          rintro (rfl | hmem)
          · exact hax rfl
          · exact ihx hmem

theorem count_eq_one_of_nodup_endTimes {a : NatRow} {l : List NatRow}
    (hnodup : (endTimes l).Nodup) (hmem : a ∈ l) : l.count a = 1 :=
  List.count_eq_one_of_mem (List.Nodup.of_map NatRow.end_datetime_utc hnodup) hmem

theorem eq_of_endTimes_nodup {a b : NatRow} {l : List NatRow}
    (hnodup : (endTimes l).Nodup) (ha : a ∈ l) (hb : b ∈ l)
    (hkey : a.end_datetime_utc = b.end_datetime_utc) : a = b := by
  induction l with
  | nil => simp at ha
  | cons x xs ih =>
    simp only [endTimes, List.map_cons, List.nodup_cons] at hnodup
    rcases List.mem_cons.mp ha with rfl | ha' <;>
      rcases List.mem_cons.mp hb with rfl | hb'
    · rfl
    · exact absurd (hkey ▸ List.mem_map_of_mem NatRow.end_datetime_utc hb')
        hnodup.1
    · exact absurd (hkey ▸ List.mem_map_of_mem NatRow.end_datetime_utc ha')
        (by simpa [hkey] using hnodup.1)
    · exact ih hnodup.2 ha' hb'

/-- C8 (amended): in the unnormalisation step the output horizon value is `0`
when the input value is at or below (`<=` in the code) the night threshold
`0.000234`, and the input value times the row's `installedcapacity_mwp`
otherwise; the number of horizon columns is unchanged. -/
theorem un_norm_forecast_row_spec (r : XgRow) (k : ℕ)
    (hk : k < r.hourForecasts.length) :
    (un_norm_forecast_row r).hourForecasts.length = r.hourForecasts.length ∧
    (un_norm_forecast_row r).hourForecasts.getD k 0 =
      if r.hourForecasts.getD k 0 ≤ nightThreshold then 0
      else r.hourForecasts.getD k 0 * r.installedcapacity_mwp := by
  refine ⟨by simp [un_norm_forecast_row], ?_⟩
  have hmap : (un_norm_forecast_row r).hourForecasts.getD k 0 =
      (fun v => (if idx_night v then 0 else v) * r.installedcapacity_mwp)
        (r.hourForecasts.getD k 0) := by
    simp only [un_norm_forecast_row]
    rw [List.getD_eq_getElem _ _ (by simpa using hk),
      List.getD_eq_getElem _ _ hk, List.getElem_map]
  rw [hmap]
  simp only [idx_night, decide_eq_true_eq]
  by_cases h : r.hourForecasts.getD k 0 ≤ nightThreshold <;> simp [h]

/-- Witness for `un_norm_forecast_row_spec` at a concrete row. -/
theorem un_norm_forecast_row_spec_witness :
    (0 : ℕ) < (XgRow.mk [1/2] 100).hourForecasts.length ∧
    ((un_norm_forecast_row (XgRow.mk [1/2] 100)).hourForecasts.length =
        (XgRow.mk [1/2] 100).hourForecasts.length ∧
      (un_norm_forecast_row (XgRow.mk [1/2] 100)).hourForecasts.getD 0 0 =
        if (XgRow.mk [1/2] 100).hourForecasts.getD 0 0 ≤ nightThreshold then 0
        else (XgRow.mk [1/2] 100).hourForecasts.getD 0 0 *
          (XgRow.mk [1/2] 100).installedcapacity_mwp) :=
  ⟨by decide, un_norm_forecast_row_spec (XgRow.mk [1/2] 100) 0 (by decide)⟩

/-- C8 counterexample: at an input value exactly equal to the threshold the
code outputs `0`, while the claim ("below the threshold") demands
`v * installedcapacity_mwp = 0.000468 ≠ 0` since `v` is not below itself. -/
theorem un_norm_forecast_row_boundary :
    (un_norm_forecast_row (XgRow.mk [nightThreshold] 2)).hourForecasts = [0] ∧
    ¬ nightThreshold < nightThreshold ∧
    nightThreshold * 2 ≠ 0 := by
  refine ⟨?_, by simp, by norm_num [nightThreshold]⟩
  simp [un_norm_forecast_row, idx_night, nightThreshold]

/-- C10: each generated half-hour column (base, p10 and p90) is the
arithmetic mean of the two adjacent hourly columns. -/
theorem generate_half_hourly_forecasts_mean (r : ProbRow) (i : ℕ)
    (hi : i + 1 < r.base.length) :
    (generate_half_hourly_forecasts r).baseHalf.getD i 0 =
      (r.base.getD i 0 + r.base.getD (i + 1) 0) / 2 ∧
    (generate_half_hourly_forecasts r).p10Half.getD i 0 =
      (r.p10.getD i 0 + r.p10.getD (i + 1) 0) / 2 ∧
    (generate_half_hourly_forecasts r).p90Half.getD i 0 =
      (r.p90.getD i 0 + r.p90.getD (i + 1) 0) / 2 := by
  have hi' : i < r.base.length - 1 := by omega
  refine ⟨?_, ?_, ?_⟩ <;>
    · simp only [generate_half_hourly_forecasts]
      rw [List.getD_eq_getElem _ _ (by simpa using hi')]
      simp

/-- Witness for `generate_half_hourly_forecasts_mean` at a concrete row. -/
theorem generate_half_hourly_forecasts_mean_witness :
    (0 : ℕ) + 1 < (ProbRow.mk [1, 3] [0, 2] [2, 6]).base.length ∧
    ((generate_half_hourly_forecasts (ProbRow.mk [1, 3] [0, 2] [2, 6])).baseHalf.getD 0 0 =
      ((ProbRow.mk [1, 3] [0, 2] [2, 6]).base.getD 0 0 +
        (ProbRow.mk [1, 3] [0, 2] [2, 6]).base.getD 1 0) / 2 ∧
    (generate_half_hourly_forecasts (ProbRow.mk [1, 3] [0, 2] [2, 6])).p10Half.getD 0 0 =
      ((ProbRow.mk [1, 3] [0, 2] [2, 6]).p10.getD 0 0 +
        (ProbRow.mk [1, 3] [0, 2] [2, 6]).p10.getD 1 0) / 2 ∧
    (generate_half_hourly_forecasts (ProbRow.mk [1, 3] [0, 2] [2, 6])).p90Half.getD 0 0 =
      ((ProbRow.mk [1, 3] [0, 2] [2, 6]).p90.getD 0 0 +
        (ProbRow.mk [1, 3] [0, 2] [2, 6]).p90.getD 1 0) / 2) :=
  ⟨by decide, generate_half_hourly_forecasts_mean (ProbRow.mk [1, 3] [0, 2] [2, 6]) 0 (by decide)⟩

/-- C1: under unique timestamps in each input, the merged national table has
strictly increasing (hence unique and sorted) timestamps, its timestamp set
is exactly the union of the input timestamp sets, every merged row comes from
one of the inputs, and a merged row whose timestamp occurs in the newly
fetched table is that newly fetched row. -/
theorem merge_tables_spec (existing newData : List NatRow)
    (hex : (endTimes existing).Nodup) (hnw : (endTimes newData).Nodup) :
    List.Chain' (· < ·) (endTimes (merge_tables existing newData)) ∧
    (∀ t, t ∈ endTimes (merge_tables existing newData) ↔
      t ∈ endTimes existing ∨ t ∈ endTimes newData) ∧
    (∀ r ∈ merge_tables existing newData, r ∈ existing ∨ r ∈ newData) ∧
    (∀ r' ∈ newData, ∀ r ∈ merge_tables existing newData,
      r.end_datetime_utc = r'.end_datetime_utc → r = r') := by
  set s := List.insertionSort natRowLe (existing ++ newData) with hs
  have hperm : s.Perm (existing ++ newData) := List.perm_insertionSort _ _
  have hsorted : List.Sorted natRowLe s := List.sorted_insertionSort _ _
  have hsub : (drop_duplicates_keep_last s).Sublist s :=
    drop_duplicates_keep_last_sublist s
  have hmemresult : ∀ r ∈ merge_tables existing newData,
      r ∈ existing ∨ r ∈ newData := by
    intro r hr
    have hr' : r ∈ s := mem_of_mem_drop_duplicates_keep_last hr
    simpa using hperm.mem_iff.mp hr'
  have hmemtimes : ∀ t, t ∈ endTimes (merge_tables existing newData) ↔
      t ∈ endTimes existing ∨ t ∈ endTimes newData := by
    intro t
    have h1 : t ∈ endTimes (merge_tables existing newData) ↔ t ∈ endTimes s :=
      mem_endTimes_drop_duplicates_keep_last
    have h2 : (endTimes s).Perm (endTimes (existing ++ newData)) :=
      hperm.map NatRow.end_datetime_utc
    rw [h1, h2.mem_iff]
    simp [endTimes]
  refine ⟨?_, hmemtimes, hmemresult, ?_⟩
  · -- strictly increasing timestamps
    have hpw : List.Pairwise natRowLe (merge_tables existing newData) :=
      hsorted.sublist hsub
    have hle : List.Pairwise (· ≤ ·) (endTimes (merge_tables existing newData)) :=
      List.pairwise_map.mpr hpw
    have hnd : (endTimes (merge_tables existing newData)).Nodup :=
      nodup_endTimes_drop_duplicates_keep_last s
    exact List.chain'_iff_pairwise.mpr
      (List.Pairwise.imp₂ (fun a b hab hne => lt_of_le_of_ne hab hne) hle hnd)
  · -- rows at shared timestamps come from the new table
    intro r' hr' r hr hkey
    rcases hmemresult r hr with hrex | hrnw
    · by_cases hrnew : r ∈ newData
      · exact eq_of_endTimes_nodup hnw hrnew hr' hkey
      · exfalso
        have hcount : s.count r = 1 := by
          rw [hperm.count_eq, List.count_append,
            count_eq_one_of_nodup_endTimes hex hrex,
            List.count_eq_zero_of_not_mem hrnew]
        have hpair : List.Sublist [r, r'] (existing ++ newData) :=
          List.Sublist.append (List.singleton_sublist.mpr hrex)
            (List.singleton_sublist.mpr hr')
        have hpair' : List.Sublist [r, r'] s :=
          List.sublist_insertionSort (List.pairwise_pair.mpr (le_of_eq hkey)) hpair
        exact not_mem_drop_duplicates_keep_last_of_count_one hcount hpair' hkey hr
    · exact eq_of_endTimes_nodup hnw hrnw hr' hkey

/-- Witness for `merge_tables_spec`: the spec's end-to-end scenario — three
existing points 00:00–01:00 merged with four new points 00:30–02:00 yield the
five sorted timestamps 00:00–02:00 with the 00:30 (and 01:00) rows taken from
the new fetch. -/
theorem merge_tables_spec_witness :
    ((endTimes scenarioExisting).Nodup ∧ (endTimes scenarioNew).Nodup) ∧
    (List.Chain' (· < ·) (endTimes (merge_tables scenarioExisting scenarioNew)) ∧
      (∀ t, t ∈ endTimes (merge_tables scenarioExisting scenarioNew) ↔
        t ∈ endTimes scenarioExisting ∨ t ∈ endTimes scenarioNew) ∧
      (∀ r ∈ merge_tables scenarioExisting scenarioNew,
        r ∈ scenarioExisting ∨ r ∈ scenarioNew) ∧
      (∀ r' ∈ scenarioNew, ∀ r ∈ merge_tables scenarioExisting scenarioNew,
        r.end_datetime_utc = r'.end_datetime_utc → r = r')) ∧
    merge_tables scenarioExisting scenarioNew =
      [⟨0, 1, 1, 1⟩, ⟨30, 20, 20, 20⟩, ⟨60, 30, 30, 30⟩,
        ⟨90, 40, 40, 40⟩, ⟨120, 50, 50, 50⟩] :=
  ⟨⟨by decide, by decide⟩,
    merge_tables_spec scenarioExisting scenarioNew (by decide) (by decide),
    by decide⟩

/-- C9: the forecast joiner fails with the `ValueError` message exactly when
the two inputs share a `forecasting_creation_datetime_utc` value; otherwise
its output is a permutation of the concatenation of the two inputs, sorted
ascending by creation datetime. -/
theorem join_forecasts_spec (df1 df2 : List Forecast) :
    match join_forecasts df1 df2 with
    | .error m =>
        m = "Overlapping dates found. Please check your input data." ∧
        ∃ t, t ∈ df1.map Forecast.forecasting_creation_datetime_utc ∧
          t ∈ df2.map Forecast.forecasting_creation_datetime_utc
    | .ok out =>
        (¬ ∃ t, t ∈ df1.map Forecast.forecasting_creation_datetime_utc ∧
          t ∈ df2.map Forecast.forecasting_creation_datetime_utc) ∧
        out.Perm (df1 ++ df2) ∧ List.Sorted forecastLe out := by
  by_cases h : overlapping_dates df1 df2 = true
  · simp only [join_forecasts, h, if_true]
    refine ⟨trivial, ?_⟩
    obtain ⟨r, hr, hin⟩ := List.any_eq_true.mp h
    have hin' : ∃ s ∈ df2, s.forecasting_creation_datetime_utc =
        r.forecasting_creation_datetime_utc := by simpa using hin
    obtain ⟨s, hsmem, hst'⟩ := hin'
    exact ⟨r.forecasting_creation_datetime_utc,
      List.mem_map_of_mem _ hr,
      hst' ▸ List.mem_map_of_mem Forecast.forecasting_creation_datetime_utc hsmem⟩
  · simp only [join_forecasts, if_neg h]
    refine ⟨?_, List.perm_insertionSort _ _, List.sorted_insertionSort _ _⟩
    rintro ⟨t, ht1, ht2⟩
    obtain ⟨r, hr, hrt⟩ := List.mem_map.mp ht1
    obtain ⟨s, hsmem, hst⟩ := List.mem_map.mp ht2
    exact h (List.any_eq_true.mpr ⟨r, hr, List.any_eq_true.mpr
      ⟨s, hsmem, by simp [hrt, hst]⟩⟩)

theorem processGsps_apply (start : ℕ) (gt : List ℕ)
    (fetch : ℕ → Except String (List Obs)) (ids : List ℕ)
    (g : ℕ → List Cell) (i : ℕ) :
    processGsps start gt fetch ids g i =
      match tryProcessGsp start gt (fetch i) with
      | some s => if i ∈ ids then s else g i
      | none => g i := by
  induction ids generalizing g with
  | nil =>
    cases htp : tryProcessGsp start gt (fetch i) <;> simp [processGsps, htp]
  | cons j rest ih =>
    simp only [processGsps]
    rw [ih]
    by_cases hij : i = j
    · subst hij
      cases htp : tryProcessGsp start gt (fetch i) <;>
        simp [htp, updateGrid, List.mem_cons]
    · cases htp : tryProcessGsp start gt (fetch i) <;>
        cases htp2 : tryProcessGsp start gt (fetch j) <;>
          simp [htp, htp2, updateGrid, hij, List.mem_cons]

/-- C5: an entity whose fetch returns no observations at all keeps its
all-zero slice — every cell (all three variables, at every grid timestamp)
is zero. -/
theorem get_gsp_pvlive_data_empty_entity (t0 tEnd n : ℕ)
    (fetch : ℕ → Except String (List Obs)) (i : ℕ)
    (h : fetch i = .ok []) :
    get_gsp_pvlive_data t0 tEnd n fetch i =
      List.replicate (date_range t0 tEnd).length Cell.zero ∧
    ∀ c ∈ get_gsp_pvlive_data t0 tEnd n fetch i,
      c.generation_mw = 0 ∧ c.capacity_mwp = 0 ∧ c.installedcapacity_mwp = 0 := by
  have htp : tryProcessGsp t0 (date_range t0 tEnd) (fetch i) = none := by
    rw [h]; rfl
  have h1 : get_gsp_pvlive_data t0 tEnd n fetch i =
      List.replicate (date_range t0 tEnd).length Cell.zero := by
    unfold get_gsp_pvlive_data
    rw [processGsps_apply, htp]
    rfl
  refine ⟨h1, ?_⟩
  rw [h1]
  intro c hc
  have hcz : c = Cell.zero := List.eq_of_mem_replicate hc
  subst hcz
  exact ⟨rfl, rfl, rfl⟩

/-- Witness for `get_gsp_pvlive_data_empty_entity` on a two-entity run whose
entity 0 fetch is empty. -/
theorem get_gsp_pvlive_data_empty_entity_witness :
    ((fun _ : ℕ => (Except.ok [] : Except String (List Obs))) 0 =
      Except.ok []) ∧
    (get_gsp_pvlive_data 0 60 2 (fun _ => Except.ok []) 0 =
      List.replicate (date_range 0 60).length Cell.zero ∧
    ∀ c ∈ get_gsp_pvlive_data 0 60 2 (fun _ => Except.ok []) 0,
      c.generation_mw = 0 ∧ c.capacity_mwp = 0 ∧ c.installedcapacity_mwp = 0) :=
  ⟨rfl, get_gsp_pvlive_data_empty_entity 0 60 2 (fun _ => Except.ok []) 0 rfl⟩

/-- C7: an exception while fetching one entity is caught and the loop
continues: the failing entity's slice stays at its zero initialisation, the
run still produces a grid, every other entity's slice is exactly what it
would have been without the failure, and the same holds for the extender's
per-GSP update loop (`ds_new` keeps zeros for the failing GSP and the other
GSPs' cells only depend on their own fetch). -/
theorem get_gsp_pvlive_data_error_entity (t0 tEnd n : ℕ)
    (fetch : ℕ → Except String (List Obs)) (i : ℕ) (e : String)
    (h : fetch i = .error e) :
    get_gsp_pvlive_data t0 tEnd n fetch i =
      List.replicate (date_range t0 tEnd).length Cell.zero ∧
    (∀ fetch' : ℕ → Except String (List Obs),
      (∀ j, j ≠ i → fetch' j = fetch j) →
      ∀ j, j ≠ i → get_gsp_pvlive_data t0 tEnd n fetch' j =
        get_gsp_pvlive_data t0 tEnd n fetch j) ∧
    (∀ ds : GspDataset, ∀ t, extend_new_cell ds fetch t i = Cell.zero) ∧
    (∀ ds : GspDataset, ∀ fetch' : ℕ → Except String (List Obs),
      (∀ j, j ≠ i → fetch' j = fetch j) →
      ∀ j, j ≠ i → ∀ t, extend_new_cell ds fetch' t j = extend_new_cell ds fetch t j) := by
  refine ⟨?_, ?_, ?_, ?_⟩
  · have htp : tryProcessGsp t0 (date_range t0 tEnd) (fetch i) = none := by
      rw [h]
      rfl
    unfold get_gsp_pvlive_data
    rw [processGsps_apply, htp]
    rfl
  · intro fetch' hagree j hji
    unfold get_gsp_pvlive_data
    rw [processGsps_apply, processGsps_apply, hagree j hji]
  · intro ds t
    have hpf : processFetch (latest_date ds) (fetch i) = [] := by
      rw [h]
      rfl
    by_cases hmem : i ∈ ds.gspIds <;>
      simp [extend_new_cell, hmem, hpf, locLast]
  · intro ds fetch' hagree j hji t
    rw [extend_new_cell, extend_new_cell, hagree j hji]

/-- Witness for `get_gsp_pvlive_data_error_entity`: a two-entity run whose
entity 0 fetch raises. -/
theorem get_gsp_pvlive_data_error_entity_witness :
    ((fun k : ℕ => if k = 0 then (Except.error "boom" : Except String (List Obs))
        else Except.ok [Obs.mk 0 1 1 1]) 0 = Except.error "boom") ∧
    (get_gsp_pvlive_data 0 60 2
        (fun k => if k = 0 then Except.error "boom" else Except.ok [Obs.mk 0 1 1 1]) 0 =
      List.replicate (date_range 0 60).length Cell.zero ∧
    (∀ fetch' : ℕ → Except String (List Obs),
      (∀ j, j ≠ 0 → fetch' j =
        (fun k => if k = 0 then (Except.error "boom" : Except String (List Obs))
          else Except.ok [Obs.mk 0 1 1 1]) j) →
      ∀ j, j ≠ 0 → get_gsp_pvlive_data 0 60 2 fetch' j =
        get_gsp_pvlive_data 0 60 2
          (fun k => if k = 0 then Except.error "boom" else Except.ok [Obs.mk 0 1 1 1]) j) ∧
    (∀ ds : GspDataset, ∀ t, extend_new_cell ds
      (fun k => if k = 0 then Except.error "boom" else Except.ok [Obs.mk 0 1 1 1]) t 0 =
        Cell.zero) ∧
    (∀ ds : GspDataset, ∀ fetch' : ℕ → Except String (List Obs),
      (∀ j, j ≠ 0 → fetch' j =
        (fun k => if k = 0 then (Except.error "boom" : Except String (List Obs))
          else Except.ok [Obs.mk 0 1 1 1]) j) →
      ∀ j, j ≠ 0 → ∀ t, extend_new_cell ds fetch' t j = extend_new_cell ds
        (fun k => if k = 0 then Except.error "boom" else Except.ok [Obs.mk 0 1 1 1]) t j)) :=
  ⟨rfl, get_gsp_pvlive_data_error_entity 0 60 2
    (fun k => if k = 0 then Except.error "boom" else Except.ok [Obs.mk 0 1 1 1]) 0 "boom" rfl⟩

theorem le_maxTime {t : ℕ} {l : List ℕ} (h : t ∈ l) : t ≤ maxTime l := by
  induction l with
  | nil => simp at h
  | cons x xs ih =>
    rcases List.mem_cons.mp h with rfl | h'
    · exact le_max_left _ _
    · exact le_trans (ih h') (le_max_right _ _)

theorem date_range_length {a b : ℕ} (hab : a ≤ b) :
    (date_range a b).length = (b - a) / 30 + 1 := by
  simp [date_range, Nat.not_lt.mpr hab]

theorem date_range_getD {a b k : ℕ} (hk : k < (date_range a b).length) :
    (date_range a b).getD k 0 = a + 30 * k := by
  by_cases hab : b < a
  · simp [date_range, hab] at hk
  · have hk' : k < (List.range ((b - a) / 30 + 1)).length := by
      simpa [date_range, hab] using hk
    rw [date_range, if_neg hab, List.getD_eq_getElem _ _ (by simpa using hk'),
      List.getElem_map, List.getElem_range]

theorem date_range_nodup (a b : ℕ) : (date_range a b).Nodup := by
  by_cases hab : b < a
  · simp [date_range, hab]
  · rw [date_range, if_neg hab]
    exact (List.nodup_range _).map fun k₁ k₂ h => by omega

theorem mem_date_range_lower {a b t : ℕ} (h : t ∈ date_range a b) : a ≤ t := by
  by_cases hab : b < a
  · simp [date_range, hab] at h
  · rw [date_range, if_neg hab] at h
    obtain ⟨k, _, rfl⟩ := List.mem_map.mp h
    omega

theorem eq_of_obsTimes_nodup {a b : Obs} {l : List Obs}
    (hnodup : (l.map Obs.datetime_gmt).Nodup) (ha : a ∈ l) (hb : b ∈ l)
    (hkey : a.datetime_gmt = b.datetime_gmt) : a = b := by
  induction l with
  | nil => simp at ha
  | cons x xs ih =>
    simp only [List.map_cons, List.nodup_cons] at hnodup
    rcases List.mem_cons.mp ha with rfl | ha' <;>
      rcases List.mem_cons.mp hb with rfl | hb'
    · rfl
    · exact absurd (hkey ▸ List.mem_map_of_mem Obs.datetime_gmt hb') hnodup.1
    · exact absurd (hkey ▸ List.mem_map_of_mem Obs.datetime_gmt ha')
        (by simpa [hkey] using hnodup.1)
    · exact ih hnodup.2 ha' hb'

theorem sorted_obsLe_le_getLast {l : List Obs} (hs : List.Sorted obsLe l)
    {y : Obs} (hy : y ∈ l) (h : l ≠ []) :
    y.datetime_gmt ≤ (l.getLast h).datetime_gmt := by
  induction l with
  | nil => simp at hy
  | cons x xs ih =>
    cases xs with
    | nil =>
      have : y = x := by simpa using hy
      subst this
      simp [List.getLast]
    | cons z t =>
      rw [List.getLast_cons (by simp)]
      rcases List.mem_cons.mp hy with rfl | hy'
      · have hall := List.rel_of_sorted_cons hs
        exact hall _ (List.getLast_mem _)
      · exact ih hs.of_cons hy' (by simp)

theorem lastAtOrBefore_self {l : List Obs} {o : Obs}
    (hs : List.Sorted obsLe l) (hnd : (l.map Obs.datetime_gmt).Nodup)
    (ho : o ∈ l) : lastAtOrBefore l o.datetime_gmt = some o := by
  set f := l.filter fun x => x.datetime_gmt ≤ o.datetime_gmt with hf
  have hof : o ∈ f := List.mem_filter.mpr ⟨ho, by simp⟩
  have hne : f ≠ [] := List.ne_nil_of_mem hof
  have hsf : List.Sorted obsLe f := hs.sublist (List.filter_sublist l)
  have hlast_mem : f.getLast hne ∈ f := List.getLast_mem hne
  have hlast_le : (f.getLast hne).datetime_gmt ≤ o.datetime_gmt := by
    have := List.mem_filter.mp hlast_mem
    simpa using this.2
  have hle_last : o.datetime_gmt ≤ (f.getLast hne).datetime_gmt :=
    sorted_obsLe_le_getLast hsf hof hne
  have heq : (f.getLast hne).datetime_gmt = o.datetime_gmt :=
    le_antisymm hlast_le hle_last
  have hlast_l : f.getLast hne ∈ l := (List.mem_filter.mp hlast_mem).1
  have : f.getLast hne = o := eq_of_obsTimes_nodup hnd hlast_l ho heq
  rw [lastAtOrBefore, ← hf, List.getLast?_eq_getLast f hne, this]

theorem lastAtOrBefore_congr {l : List Obs} {a b : ℕ} (hab : a ≤ b)
    (h : ∀ o ∈ l, ¬(a < o.datetime_gmt ∧ o.datetime_gmt ≤ b)) :
    lastAtOrBefore l b = lastAtOrBefore l a := by
  unfold lastAtOrBefore
  rw [List.filter_congr]
  intro o ho
  by_cases h1 : o.datetime_gmt ≤ a
  · simp [h1, le_trans h1 hab]
  · have h2 : ¬ o.datetime_gmt ≤ b := fun hle => h o ho ⟨by omega, hle⟩
    simp [h1, h2]

theorem reindexFfill_getD {gt : List ℕ} {l : List Obs} {k : ℕ}
    (hk : k < gt.length) :
    (reindexFfill gt l).getD k Cell.zero =
      ((lastAtOrBefore l (gt.getD k 0)).map Obs.cell).getD Cell.zero := by
  rw [reindexFfill, List.getD_eq_getElem _ _ (by simpa using hk),
    List.getElem_map, List.getD_eq_getElem _ _ hk]

theorem tryProcessGsp_eq_some {t0 : ℕ} {gt : List ℕ} {obs : List Obs}
    {slice : List Cell} (hnd : (obs.map Obs.datetime_gmt).Nodup)
    (h : tryProcessGsp t0 gt (.ok obs) = some slice) :
    ∃ df : List Obs,
      slice = reindexFfill gt df ∧
      List.Sorted obsLe df ∧
      (df.map Obs.datetime_gmt).Nodup ∧
      (∀ o ∈ obs, o ∈ df) ∧
      (∀ o ∈ df, o ∈ obs ∨ o.datetime_gmt = t0) := by
  simp only [tryProcessGsp] at h
  by_cases he : obs.isEmpty
  · rw [if_pos he] at h
    exact absurd h (by simp)
  · rw [if_neg he] at h
    have hsort : List.Sorted obsLe (sortObs obs) := List.sorted_insertionSort _ _
    have hpermk : ((sortObs obs).map Obs.datetime_gmt).Perm
        (obs.map Obs.datetime_gmt) := (List.perm_insertionSort _ _).map _
    have hndk : ((sortObs obs).map Obs.datetime_gmt).Nodup :=
      (hpermk.symm).nodup hnd
    by_cases hany : ((sortObs obs).any fun o => o.datetime_gmt = t0) = true
    · rw [if_pos hany] at h
      refine ⟨sortObs obs, by simpa using h.symm, hsort, hndk, ?_, ?_⟩
      · intro o ho
        exact (List.mem_insertionSort _).mpr ho
      · intro o ho
        exact Or.inl ((List.mem_insertionSort _).mp ho)
    · rw [if_neg hany] at h
      cases hloc : locObs (sortObs obs) (t0 + 30) with
      | none => rw [hloc] at h; exact absurd h (by simp)
      | some f =>
        rw [hloc] at h
        have hslice : slice =
            reindexFfill gt (sortObs ({ f with datetime_gmt := t0 } :: sortObs obs)) := by
          simpa using h.symm
        have hnot0 : ∀ o ∈ obs, o.datetime_gmt ≠ t0 := by
          intro o ho
          have := List.any_eq_false.mp (Bool.not_eq_true _ ▸ hany) o
            ((List.mem_insertionSort _).mpr ho)
          simpa using this
        have hsort2 : List.Sorted obsLe
            (sortObs ({ f with datetime_gmt := t0 } :: sortObs obs)) :=
          List.sorted_insertionSort _ _
        have hpermk2 : ((sortObs ({ f with datetime_gmt := t0 } :: sortObs obs)).map
            Obs.datetime_gmt).Perm
            (t0 :: (sortObs obs).map Obs.datetime_gmt) :=
          (List.perm_insertionSort _ _).map _
        have hndk2 : ((sortObs ({ f with datetime_gmt := t0 } :: sortObs obs)).map
            Obs.datetime_gmt).Nodup := by
          refine (hpermk2.symm).nodup (List.nodup_cons.mpr ⟨?_, hndk⟩)
          intro hmem
          obtain ⟨y, hy, hyt⟩ := List.mem_map.mp hmem
          exact hnot0 y ((List.mem_insertionSort _).mp hy) hyt
        refine ⟨_, hslice, hsort2, hndk2, ?_, ?_⟩
        · intro o ho
          exact (List.mem_insertionSort _).mpr
            (List.mem_cons.mpr (Or.inr ((List.mem_insertionSort _).mpr ho)))
        · intro o ho
          rcases List.mem_cons.mp ((List.mem_insertionSort _).mp ho) with rfl | ho'
          · exact Or.inr rfl
          · exact Or.inl ((List.mem_insertionSort _).mp ho')

/-- C6 (amended): for an entity that is actually processed (fetch succeeded,
frame non-empty, and an observation exists at the first grid slot or at the
slot 30 minutes later, possibly via the copied start row), the slice has one
cell per grid timestamp; a slot carrying an observation at its exact
timestamp gets that observation's values; and a slot with no observation
since the previous slot inherits the previous slot's cell (forward-fill).
An entity with a non-empty frame but no observation at the first or second
slot is skipped entirely (`KeyError` branch), leaving its slice zero. -/
theorem tryProcessGsp_ffill (t0 tEnd : ℕ) (obs : List Obs) (slice : List Cell)
    (hnd : (obs.map Obs.datetime_gmt).Nodup)
    (hproc : tryProcessGsp t0 (date_range t0 tEnd) (.ok obs) = some slice) :
    slice.length = (date_range t0 tEnd).length ∧
    (∀ k, k < (date_range t0 tEnd).length → ∀ o ∈ obs,
      o.datetime_gmt = (date_range t0 tEnd).getD k 0 →
      slice.getD k Cell.zero = o.cell) ∧
    (∀ k, k + 1 < (date_range t0 tEnd).length →
      (∀ o ∈ obs, ¬((date_range t0 tEnd).getD k 0 < o.datetime_gmt ∧
        o.datetime_gmt ≤ (date_range t0 tEnd).getD (k + 1) 0)) →
      slice.getD (k + 1) Cell.zero = slice.getD k Cell.zero) ∧
    (∀ obs' : List Obs, obs' ≠ [] →
      (∀ o ∈ obs', o.datetime_gmt ≠ t0 ∧ o.datetime_gmt ≠ t0 + 30) →
      tryProcessGsp t0 (date_range t0 tEnd) (.ok obs') = none) := by
  obtain ⟨df, rfl, hsort, hdnd, hinto, hback⟩ := tryProcessGsp_eq_some hnd hproc
  refine ⟨by simp [reindexFfill], ?_, ?_, ?_⟩
  · intro k hk o ho hot
    rw [reindexFfill_getD hk]
    have : lastAtOrBefore df ((date_range t0 tEnd).getD k 0) = some o := by
      rw [← hot]
      exact lastAtOrBefore_self hsort hdnd (hinto o ho)
    rw [this]
    rfl
  · intro k hk hno
    rw [reindexFfill_getD hk, reindexFfill_getD (by omega)]
    have hk0 : (date_range t0 tEnd).getD k 0 = t0 + 30 * k :=
      date_range_getD (by omega)
    have hk1 : (date_range t0 tEnd).getD (k + 1) 0 = t0 + 30 * (k + 1) :=
      date_range_getD hk
    have hcongr : lastAtOrBefore df ((date_range t0 tEnd).getD (k + 1) 0) =
        lastAtOrBefore df ((date_range t0 tEnd).getD k 0) := by
      apply lastAtOrBefore_congr (by omega)
      intro o ho
      rcases hback o ho with hobs | ht0
      · exact hno o hobs
      · rintro ⟨h1, _⟩
        omega
    rw [hcongr]
  · intro obs' hne hno
    have hemp : obs'.isEmpty = false := by
      cases obs' with
      | nil => exact absurd rfl hne
      | cons _ _ => rfl
    have hany : ((sortObs obs').any fun o => o.datetime_gmt = t0) = false := by
      refine List.any_eq_false.mpr ?_
      intro o ho
      simpa using (hno o ((List.mem_insertionSort _).mp ho)).1
    have hloc : locObs (sortObs obs') (t0 + 30) = none := by
      refine List.find?_eq_none.mpr ?_
      intro o ho
      simpa using (hno o ((List.mem_insertionSort _).mp ho)).2
    simp only [tryProcessGsp, hemp, Bool.false_eq_true, if_false, hany, hloc]

/-- Witness for `tryProcessGsp_ffill`: observations at minutes 0 and 90 on
the five-slot grid 0–120; the processed slice forward-fills slots 30 and 60
from the observation at 0 and slot 120 from the observation at 90. -/
theorem tryProcessGsp_ffill_witness :
    (((([Obs.mk 0 1 2 3, Obs.mk 90 7 8 9] : List Obs)).map Obs.datetime_gmt).Nodup ∧
      tryProcessGsp 0 (date_range 0 120) (.ok [Obs.mk 0 1 2 3, Obs.mk 90 7 8 9]) =
        some [Cell.mk 1 2 3, Cell.mk 1 2 3, Cell.mk 1 2 3,
          Cell.mk 7 8 9, Cell.mk 7 8 9]) ∧
    (([Cell.mk 1 2 3, Cell.mk 1 2 3, Cell.mk 1 2 3,
        Cell.mk 7 8 9, Cell.mk 7 8 9] : List Cell).length =
      (date_range 0 120).length ∧
    (∀ k, k < (date_range 0 120).length →
      ∀ o ∈ ([Obs.mk 0 1 2 3, Obs.mk 90 7 8 9] : List Obs),
      o.datetime_gmt = (date_range 0 120).getD k 0 →
      ([Cell.mk 1 2 3, Cell.mk 1 2 3, Cell.mk 1 2 3,
        Cell.mk 7 8 9, Cell.mk 7 8 9] : List Cell).getD k Cell.zero = o.cell) ∧
    (∀ k, k + 1 < (date_range 0 120).length →
      (∀ o ∈ ([Obs.mk 0 1 2 3, Obs.mk 90 7 8 9] : List Obs),
        ¬((date_range 0 120).getD k 0 < o.datetime_gmt ∧
          o.datetime_gmt ≤ (date_range 0 120).getD (k + 1) 0)) →
      ([Cell.mk 1 2 3, Cell.mk 1 2 3, Cell.mk 1 2 3,
        Cell.mk 7 8 9, Cell.mk 7 8 9] : List Cell).getD (k + 1) Cell.zero =
      ([Cell.mk 1 2 3, Cell.mk 1 2 3, Cell.mk 1 2 3,
        Cell.mk 7 8 9, Cell.mk 7 8 9] : List Cell).getD k Cell.zero) ∧
    (∀ obs' : List Obs, obs' ≠ [] →
      (∀ o ∈ obs', o.datetime_gmt ≠ 0 ∧ o.datetime_gmt ≠ 0 + 30) →
      tryProcessGsp 0 (date_range 0 120) (.ok obs') = none)) :=
  ⟨⟨by decide, by decide⟩,
    tryProcessGsp_ffill 0 120 [Obs.mk 0 1 2 3, Obs.mk 90 7 8 9]
      [Cell.mk 1 2 3, Cell.mk 1 2 3, Cell.mk 1 2 3, Cell.mk 7 8 9, Cell.mk 7 8 9]
      (by decide) (by decide)⟩

/-- C6 counterexample: an entity whose only observation sits at minute 60
(neither the first grid slot 0 nor the second slot 30) is skipped by the
`KeyError` branch, so its whole slice stays zero — the grid cell at the
observation's own timestamp is zero, not the observation's value, contrary
to the claim's forward-fill sentence. -/
theorem get_gsp_pvlive_data_midrange_skip :
    get_gsp_pvlive_data 0 90 1 (fun _ => Except.ok [Obs.mk 60 5 5 5]) 0 =
      List.replicate 4 Cell.zero ∧
    (get_gsp_pvlive_data 0 90 1 (fun _ => Except.ok [Obs.mk 60 5 5 5]) 0).getD 2
        Cell.zero ≠ (Obs.mk 60 5 5 5).cell ∧
    (date_range 0 90).getD 2 0 = (Obs.mk 60 5 5 5).datetime_gmt := by
  exact ⟨by decide, by decide, by decide⟩

/-- C4 (amended): when a fetch happens at all (`latest_date < end_date`),
the query window is `[T + 30 minutes, E]` where `T` is the last persisted
timestamp — the start lies strictly after every persisted timestamp — and
no fetch happens when `E ≤ T + 30 minutes`. -/
theorem fetchWindow_spec (ds : GspDataset) (endDate : ℕ)
    (h : latest_date ds < endDate) :
    fetchWindow ds endDate = some (maxTime ds.times + 30, endDate) ∧
    (∀ t ∈ ds.times, t < maxTime ds.times + 30) ∧
    (∀ e, e ≤ latest_date ds → fetchWindow ds e = none) := by
  refine ⟨?_, ?_, ?_⟩
  · rw [fetchWindow, if_neg (not_le.mpr h)]
    rfl
  · intro t ht
    have := le_maxTime ht
    omega
  · intro e he
    rw [fetchWindow, if_pos he]

/-- Witness for `fetchWindow_spec` on the one-point dataset. -/
theorem fetchWindow_spec_witness :
    latest_date dsOne < 90 ∧
    (fetchWindow dsOne 90 = some (maxTime dsOne.times + 30, 90) ∧
    (∀ t ∈ dsOne.times, t < maxTime dsOne.times + 30) ∧
    (∀ e, e ≤ latest_date dsOne → fetchWindow dsOne e = none)) :=
  ⟨by decide, fetchWindow_spec dsOne 90 (by decide)⟩

/-- C4 counterexample: for the dataset whose last persisted timestamp is
`T = 0` and target end date `E = 60` (so `T < E`), the query start is
`30 = T + 30`, not `T`. -/
theorem fetchWindow_start_not_last :
    maxTime dsOne.times = 0 ∧ (0 : ℕ) < 60 ∧
    fetchWindow dsOne 60 = some (30, 60) ∧
    fetchWindow dsOne 60 ≠ some (maxTime dsOne.times, 60) := by
  exact ⟨by decide, by decide, by decide, by decide⟩

/-- C2 (amended): with an empty new-data fetch, the merge is the identity
exactly when the dataset is already up to date (`end_date ≤ latest_date`);
otherwise one row per new timestamp is appended — all of them zero cells —
so the persisted result is strictly larger than the existing table. -/
theorem extend_pvlive_gsp_data_empty_fetch (ds : GspDataset) (endDate : ℕ)
    (fetch : ℕ → Except String (List Obs)) (hempty : ∀ i, fetch i = .ok []) :
    (endDate ≤ latest_date ds → extend_pvlive_gsp_data ds endDate fetch = ds) ∧
    (latest_date ds < endDate →
      (extend_pvlive_gsp_data ds endDate fetch).times.length =
        ds.times.length + (date_range (latest_date ds) endDate).length ∧
      (date_range (latest_date ds) endDate).length ≠ 0 ∧
      (∀ t i, extend_new_cell ds fetch t i = Cell.zero)) := by
  constructor
  · intro h
    rw [extend_pvlive_gsp_data, if_pos h]
  · intro h
    refine ⟨?_, ?_, ?_⟩
    · rw [extend_pvlive_gsp_data, if_neg (not_le.mpr h)]
      simp [GspDataset.times, List.length_insertionSort]
    · rw [date_range_length (le_of_lt h)]
      omega
    · intro t i
      have hpf : processFetch (latest_date ds) (fetch i) = [] := by
        rw [hempty i]
        rfl
      by_cases hmem : i ∈ ds.gspIds <;>
        simp [extend_new_cell, hmem, hpf, locLast]

/-- Witness for `extend_pvlive_gsp_data_empty_fetch` on the one-point
dataset with target end date 90. -/
theorem extend_pvlive_gsp_data_empty_fetch_witness :
    (∀ i : ℕ, (fun _ : ℕ => (Except.ok [] : Except String (List Obs))) i =
      Except.ok []) ∧
    ((90 ≤ latest_date dsOne →
      extend_pvlive_gsp_data dsOne 90 (fun _ => Except.ok []) = dsOne) ∧
    (latest_date dsOne < 90 →
      (extend_pvlive_gsp_data dsOne 90 (fun _ => Except.ok [])).times.length =
        dsOne.times.length + (date_range (latest_date dsOne) 90).length ∧
      (date_range (latest_date dsOne) 90).length ≠ 0 ∧
      (∀ t i, extend_new_cell dsOne (fun _ => Except.ok []) t i = Cell.zero))) :=
  ⟨fun _ => rfl,
    extend_pvlive_gsp_data_empty_fetch dsOne 90 (fun _ => Except.ok [])
      (fun _ => rfl)⟩

/-- C2 counterexample: the one-point dataset (last timestamp 0) extended to
end date 90 with a fetch that returns no rows for every GSP is not left
unchanged — three all-zero rows 30, 60, 90 are appended. -/
theorem extend_pvlive_gsp_data_empty_fetch_not_identity :
    (extend_pvlive_gsp_data dsOne 90 fun _ => Except.ok []).times =
      [0, 30, 60, 90] ∧
    dsOne.times = [0] ∧
    (extend_pvlive_gsp_data dsOne 90 fun _ => Except.ok []).times ≠
      dsOne.times := by
  exact ⟨by decide, by decide, by decide⟩

/-- C3 (amended): the extender preserves strictly increasing timestamps
(the appended range starts strictly after every persisted timestamp), and
the joiner's output timestamps are strictly increasing provided each input's
timestamps are themselves unique — the joiner checks only cross-input
overlap, so duplicates inside one input would survive. -/
theorem persisted_times_strict_mono (ds : GspDataset) (endDate : ℕ)
    (fetch : ℕ → Except String (List Obs)) (df1 df2 out : List Forecast)
    (hds : List.Chain' (· < ·) ds.times)
    (h1 : (df1.map Forecast.forecasting_creation_datetime_utc).Nodup)
    (h2 : (df2.map Forecast.forecasting_creation_datetime_utc).Nodup)
    (hout : join_forecasts df1 df2 = .ok out) :
    List.Chain' (· < ·) (extend_pvlive_gsp_data ds endDate fetch).times ∧
    List.Chain' (· < ·) (out.map Forecast.forecasting_creation_datetime_utc) := by
  constructor
  · by_cases hend : endDate ≤ latest_date ds
    · rw [extend_pvlive_gsp_data, if_pos hend]
      exact hds
    · rw [extend_pvlive_gsp_data, if_neg hend]
      have hend' : latest_date ds < endDate := not_le.mp hend
      set newRows := (date_range (latest_date ds) endDate).map fun t =>
        ({ datetime_gmt := t, data := fun i => extend_new_cell ds fetch t i } :
          GspRow) with hnr
      have hsorted : List.Sorted gspRowLe
          (List.insertionSort gspRowLe (ds.rows ++ newRows)) :=
        List.sorted_insertionSort _ _
      have hle : List.Pairwise (· ≤ ·)
          ((List.insertionSort gspRowLe (ds.rows ++ newRows)).map
            GspRow.datetime_gmt) :=
        List.pairwise_map.mpr hsorted
      have hmapapp : (ds.rows ++ newRows).map GspRow.datetime_gmt =
          ds.times ++ date_range (latest_date ds) endDate := by
        rw [List.map_append, hnr, List.map_map]
        simp only [GspDataset.times]
        congr 1
        exact (List.map_congr_left (fun a _ => rfl)).trans (List.map_id' _)
      have hndapp : ((ds.rows ++ newRows).map GspRow.datetime_gmt).Nodup := by
        rw [hmapapp]
        refine List.Nodup.append ?_ (date_range_nodup _ _) ?_
        · exact (List.chain'_iff_pairwise.mp hds).imp ne_of_lt
        · intro t ht ht'
          have hlt : t ≤ maxTime ds.times := le_maxTime ht
          have hge : latest_date ds ≤ t := mem_date_range_lower ht'
          have : latest_date ds = maxTime ds.times + 30 := rfl
          omega
      have hnd : ((List.insertionSort gspRowLe (ds.rows ++ newRows)).map
          GspRow.datetime_gmt).Nodup :=
        (((List.perm_insertionSort gspRowLe (ds.rows ++ newRows)).map
          GspRow.datetime_gmt).symm).nodup hndapp
      exact List.chain'_iff_pairwise.mpr
        (List.Pairwise.imp₂ (fun a b hab hne => lt_of_le_of_ne hab hne) hle hnd)
  · have hov : overlapping_dates df1 df2 = false := by
      by_cases hb : overlapping_dates df1 df2 = true
      · rw [join_forecasts, if_pos hb] at hout
        exact absurd hout (by simp)
      · exact Bool.eq_false_iff.mpr hb
    have hout' : out = List.insertionSort forecastLe (df1 ++ df2) := by
      rw [join_forecasts, if_neg (by simp [hov])] at hout
      simpa using hout.symm
    subst hout'
    have hsorted : List.Sorted forecastLe
        (List.insertionSort forecastLe (df1 ++ df2)) :=
      List.sorted_insertionSort _ _
    have hle : List.Pairwise (· ≤ ·)
        ((List.insertionSort forecastLe (df1 ++ df2)).map
          Forecast.forecasting_creation_datetime_utc) :=
      List.pairwise_map.mpr hsorted
    have hndapp : ((df1 ++ df2).map
        Forecast.forecasting_creation_datetime_utc).Nodup := by
      rw [List.map_append]
      refine List.Nodup.append h1 h2 ?_
      intro t ht1 ht2
      obtain ⟨r, hr, hrt⟩ := List.mem_map.mp ht1
      obtain ⟨s, hsmem, hst⟩ := List.mem_map.mp ht2
      have : overlapping_dates df1 df2 = true :=
        List.any_eq_true.mpr ⟨r, hr, List.any_eq_true.mpr
          ⟨s, hsmem, by simp [hrt, hst]⟩⟩
      rw [hov] at this
      exact absurd this (by simp)
    have hnd : ((List.insertionSort forecastLe (df1 ++ df2)).map
        Forecast.forecasting_creation_datetime_utc).Nodup :=
      (((List.perm_insertionSort forecastLe (df1 ++ df2)).map
        Forecast.forecasting_creation_datetime_utc).symm).nodup hndapp
    exact List.chain'_iff_pairwise.mpr
      (List.Pairwise.imp₂ (fun a b hab hne => lt_of_le_of_ne hab hne) hle hnd)

/-- Witness for `persisted_times_strict_mono` on concrete inputs. -/
theorem persisted_times_strict_mono_witness :
    (List.Chain' (· < ·) dsOne.times ∧
      ((([Forecast.mk 1 0] : List Forecast)).map
        Forecast.forecasting_creation_datetime_utc).Nodup ∧
      ((([Forecast.mk 2 0] : List Forecast)).map
        Forecast.forecasting_creation_datetime_utc).Nodup ∧
      join_forecasts [Forecast.mk 1 0] [Forecast.mk 2 0] =
        .ok [Forecast.mk 1 0, Forecast.mk 2 0]) ∧
    (List.Chain' (· < ·)
      (extend_pvlive_gsp_data dsOne 90 fun _ => Except.ok []).times ∧
    List.Chain' (· < ·)
      (([Forecast.mk 1 0, Forecast.mk 2 0] : List Forecast).map
        Forecast.forecasting_creation_datetime_utc)) :=
  ⟨⟨by simp [dsOne, GspDataset.times], by decide, by decide, by rfl⟩,
    persisted_times_strict_mono dsOne 90 (fun _ => Except.ok [])
      [Forecast.mk 1 0] [Forecast.mk 2 0] [Forecast.mk 1 0, Forecast.mk 2 0]
      (by simp [dsOne, GspDataset.times]) (by decide) (by decide) (by rfl)⟩

/-- C3 counterexample: the joiner performs no within-input deduplication —
two rows sharing the creation timestamp 5 inside the first input survive
into the output, whose timestamps are therefore neither strictly increasing
nor unique. -/
theorem join_forecasts_duplicate_times :
    join_forecasts [Forecast.mk 5 0, Forecast.mk 5 1] [Forecast.mk 7 0] =
      .ok [Forecast.mk 5 0, Forecast.mk 5 1, Forecast.mk 7 0] ∧
    ¬ List.Chain' (· < ·)
      (([Forecast.mk 5 0, Forecast.mk 5 1, Forecast.mk 7 0] :
        List Forecast).map Forecast.forecasting_creation_datetime_utc) := by
  exact ⟨by rfl, by simp⟩

/-- Witness for `join_forecasts_spec` at a concrete overlapping pair. -/
theorem join_forecasts_spec_witness :
    (match join_forecasts [Forecast.mk 1 0] [Forecast.mk 1 5] with
    | .error m =>
        m = "Overlapping dates found. Please check your input data." ∧
        ∃ t, t ∈ ([Forecast.mk 1 0] : List Forecast).map
            Forecast.forecasting_creation_datetime_utc ∧
          t ∈ ([Forecast.mk 1 5] : List Forecast).map
            Forecast.forecasting_creation_datetime_utc
    | .ok out =>
        (¬ ∃ t, t ∈ ([Forecast.mk 1 0] : List Forecast).map
            Forecast.forecasting_creation_datetime_utc ∧
          t ∈ ([Forecast.mk 1 5] : List Forecast).map
            Forecast.forecasting_creation_datetime_utc) ∧
        out.Perm ([Forecast.mk 1 0] ++ [Forecast.mk 1 5]) ∧
        List.Sorted forecastLe out) :=
  join_forecasts_spec [Forecast.mk 1 0] [Forecast.mk 1 5]
